import Mathlib

/-!
# Verification of the muhtar API gateway's core subsystems

Shallow embedding of the Go sources of the `muhtar` reverse-proxy gateway
(rate limiting, proxy pipeline, script transformation engine), together with
theorems settling the specification claims about them.

Modelling conventions:
* Go `time.Time` and `time.Duration` are modelled as `Int` nanoseconds
  (Go stores both as 64-bit nanosecond counts; no request in scope overflows
  them, so plain `Int` is used).  `t.After(u)` is `t > u`, `t.Add(d)` is
  `t + d`, `t.Sub(u)` is `t - u`.
* `t.Unix()` (seconds since epoch, floor) is `Int.fdiv t 1000000000`.
* `int64(d.Seconds())` (float division then truncation toward zero) is
  modelled as exact truncated division `Int.div d 1000000000`.
* Go `int` counters are modelled as `Int`.
* Functions that syntactically return an `error` which is `nil` on every
  return path are embedded twice: a pure version (used by most theorems) and
  an `Except String` version mirroring the Go signature (used to show the
  error branches of the callers are dead).
-/

namespace Muhtar

/-- Nanoseconds in one second, for `time.Unix()` / `Duration.Seconds()`. -/
def nsPerSec : Int := 1000000000

/-- `t.Unix()`: seconds since epoch (floor division of nanoseconds). -/
def unixSeconds (t : Int) : Int := Int.fdiv t nsPerSec

/-- `int64(d.Seconds())`: duration in seconds, truncated toward zero. -/
def durSeconds (d : Int) : Int := Int.tdiv d nsPerSec

/-! ## internal/ratelimit: data model (`types.go`) -/

/-- Header name constants from `internal/ratelimit` (`types.go`). -/
def HeaderRateLimit : String := "X-RateLimit-Limit"

def HeaderRateRemaining : String := "X-RateLimit-Remaining"

def HeaderRateReset : String := "X-RateLimit-Reset"

def HeaderRetryAfter : String := "Retry-After"

/-- `Result` from `types.go`: outcome of a rate-limit check.
`LimitHeaders` is kept as an association list in insertion order. -/
structure Result where
  limited : Bool
  remaining : Int
  resetTime : Int
  retryAfter : Int
  limitHeaders : List (String × String)
deriving DecidableEq, Repr

/-- `window` record from `memory.go`: per-key counter and its reset time. -/
structure Window where
  count : Int
  resetTime : Int
deriving DecidableEq, Repr

/-- The memory store's `data` map, one `window` per key. -/
def Store : Type := String → Option Window

/-! ## internal/ratelimit/memory.go : MemoryStore -/

/-- `MemoryStore.Get` (memory.go lines 45-56), pure value part.
`now` is the instant of the `time.Now()` calls inside `Get`.
Every Go return path ends in `..., nil`; the error slot is elided here and
restored in `memGetE` below. -/
def memGet (st : Store) (key : String) (now : Int) : Int × Int :=
  match st key with
  | some w => if now > w.resetTime then (0, now) else (w.count, w.resetTime)
  | none => (0, now)

/-- `MemoryStore.Increment` (memory.go lines 58-78), pure value part.
Returns the new count and the updated map. -/
def memIncrement (st : Store) (key : String) (resetTime now : Int) :
    Int × Store :=
  match st key with
  | some w =>
      if now > w.resetTime then
        (1, fun k => if k = key then some ⟨1, resetTime⟩ else st k)
      else
        (w.count + 1,
         fun k => if k = key then some ⟨w.count + 1, w.resetTime⟩ else st k)
  | none => (1, fun k => if k = key then some ⟨1, resetTime⟩ else st k)

/-- `MemoryStore.Reset` (memory.go lines 80-85), pure part: deletes the key. -/
def memReset (st : Store) (key : String) : Store :=
  fun k => if k = key then none else st k

/-- `MemoryStore.Get` with the Go error slot (`(int, time.Time, error)`):
every return path of the source returns a `nil` error. -/
def memGetE (st : Store) (key : String) (now : Int) :
    Except String (Int × Int) :=
  match st key with
  | some w =>
      if now > w.resetTime then Except.ok (0, now)
      else Except.ok (w.count, w.resetTime)
  | none => Except.ok (0, now)

/-- `MemoryStore.Increment` with the Go error slot: always `nil`. -/
def memIncrementE (st : Store) (key : String) (resetTime now : Int) :
    Except String (Int × Store) :=
  match st key with
  | some w =>
      if now > w.resetTime then
        Except.ok (1, fun k => if k = key then some ⟨1, resetTime⟩ else st k)
      else
        Except.ok (w.count + 1,
          fun k => if k = key then some ⟨w.count + 1, w.resetTime⟩ else st k)
  | none =>
      Except.ok (1, fun k => if k = key then some ⟨1, resetTime⟩ else st k)

/-- `MemoryStore.Reset` with the Go error slot: always `nil`. -/
def memResetE (st : Store) (key : String) : Except String Store :=
  Except.ok (fun k => if k = key then none else st k)

/-! ## internal/ratelimit/service.go : Service.checkLimit

`Service.checkLimit` (service.go lines 176-227) over an abstract store: the
pair `(count₀, reset₀)` is what `store.Get` returned, and `inc` maps the
reset time supplied to `store.Increment` to the new count it returns.  The
several `time.Now()` calls inside `checkLimit` (lines 183, 184, 190) are
collapsed to the single instant `now`. -/

/-- The headers built in the limited branch of `checkLimit`
(service.go lines 196-201). -/
def limitedHeaders (limit resetTime retryAfter : Int) :
    List (String × String) :=
  [(HeaderRateLimit, toString limit),
   (HeaderRateRemaining, "0"),
   (HeaderRateReset, toString (unixSeconds resetTime)),
   (HeaderRetryAfter, toString (durSeconds retryAfter))]

/-- The headers built in the admitted branch of `checkLimit`
(service.go lines 221-225). -/
def admittedHeaders (limit remaining resetTime : Int) :
    List (String × String) :=
  [(HeaderRateLimit, toString limit),
   (HeaderRateRemaining, toString remaining),
   (HeaderRateReset, toString (unixSeconds resetTime))]

/-- `Service.checkLimit` (service.go lines 176-227) over an abstract store. -/
def checkLimit (count₀ reset₀ now limit window burst : Int)
    (inc : Int → Int) : Result :=
  -- lines 182-186: `if time.Now().After(resetTime) { resetTime = now+window; count = 0 }`
  let count := if now > reset₀ then 0 else count₀
  let resetTime := if now > reset₀ then now + window else reset₀
  -- lines 188-203: limited branch
  if count ≥ limit + burst then
    let retryAfter := resetTime - now
    { limited := true, remaining := 0, resetTime := resetTime,
      retryAfter := retryAfter,
      limitHeaders := limitedHeaders limit resetTime retryAfter }
  else
    -- lines 205-226: increment and admit
    let newCount := inc resetTime
    let remaining0 := limit + burst - newCount
    let remaining := if remaining0 < 0 then 0 else remaining0
    { limited := false, remaining := remaining, resetTime := resetTime,
      retryAfter := 0,
      limitHeaders := admittedHeaders limit remaining resetTime }

/-- The per-tier check algorithm exactly as the specification claim words it:
identical to `checkLimit` except that step 2 treats the window as empty
already when `now ≥ reset_at` (the source tests the strict `now > reset_at`
via `time.Now().After`). -/
def checkLimitClaim (count₀ reset₀ now limit window burst : Int)
    (inc : Int → Int) : Result :=
  let count := if now ≥ reset₀ then 0 else count₀
  let resetTime := if now ≥ reset₀ then now + window else reset₀
  if count ≥ limit + burst then
    let retryAfter := resetTime - now
    { limited := true, remaining := 0, resetTime := resetTime,
      retryAfter := retryAfter,
      limitHeaders := limitedHeaders limit resetTime retryAfter }
  else
    let newCount := inc resetTime
    let remaining := max 0 (limit + burst - newCount)
    { limited := false, remaining := remaining, resetTime := resetTime,
      retryAfter := 0,
      limitHeaders := admittedHeaders limit remaining resetTime }

/-- The claim's algorithm amended at the single point the code forces:
the window is treated as empty only when `now > reset_at` strictly. -/
def checkLimitClaimAmended (count₀ reset₀ now limit window burst : Int)
    (inc : Int → Int) : Result :=
  let count := if now > reset₀ then 0 else count₀
  let resetTime := if now > reset₀ then now + window else reset₀
  if count ≥ limit + burst then
    let retryAfter := resetTime - now
    { limited := true, remaining := 0, resetTime := resetTime,
      retryAfter := retryAfter,
      limitHeaders := limitedHeaders limit resetTime retryAfter }
  else
    let newCount := inc resetTime
    let remaining := max 0 (limit + burst - newCount)
    { limited := false, remaining := remaining, resetTime := resetTime,
      retryAfter := 0,
      limitHeaders := admittedHeaders limit remaining resetTime }

/-! ## Claim C1: the per-tier check algorithm -/

/-- `if r < 0 then 0 else r` is `max 0 r` on `Int`. -/
theorem ifNegThenZeroEqMax (r : Int) : (if r < 0 then (0 : Int) else r) = max 0 r := by
  rcases lt_or_le r 0 with h | h
  · simp [h, max_eq_left h.le]
  · simp [not_lt.2 h, max_eq_right h]

/-- C1 counterexample: at the window boundary `now = reset_at` with a full
counter, `Service.checkLimit` keeps the stored count (Go's
`time.Now().After(resetTime)` is strict) and limits the request, while the
claim's algorithm (step 2 at `now ≥ reset_at`) restarts the window and
admits it. -/
theorem c1_checkLimit_boundary_counterexample :
    checkLimit 5 100 100 5 50 0 (fun _ => 6) ≠
      checkLimitClaim 5 100 100 5 50 0 (fun _ => 6) := by
  decide

/-- C1 (amended): for every tier parameters, store read `(count₀, reset₀)`,
instant `now` and increment outcome, `Service.checkLimit` follows the claim's
algorithm with step 2 amended to the strict test `now > reset_at`: the window
is treated as empty (count 0, reset `now + window`) only when `now` is
strictly after `reset_at`; a full counter (`count ≥ limit + burst`) yields
`limited = true`, `remaining = 0`, `retry_after = reset_at − now` and the four
rate-limit headers; otherwise the store is incremented and the request is
admitted with `remaining = max 0 (limit + burst − new_count)` and the same
headers minus `Retry-After`. -/
theorem c1_checkLimit_follows_amended_claim
    (count₀ reset₀ now limit window burst : Int) (inc : Int → Int) :
    checkLimit count₀ reset₀ now limit window burst inc =
      checkLimitClaimAmended count₀ reset₀ now limit window burst inc := by
  unfold checkLimit checkLimitClaimAmended
  simp only [ifNegThenZeroEqMax]

/-! ## Claim C5: the in-memory store's Get and Increment -/

/-- `MemoryStore.Get` as the claim words it: `(0, now)` when no record exists
or `now ≥ reset_at` (the source tests the strict `now > reset_at`). -/
def memGetClaim (st : Store) (key : String) (now : Int) : Int × Int :=
  match st key with
  | some w => if now ≥ w.resetTime then (0, now) else (w.count, w.resetTime)
  | none => (0, now)

/-- `MemoryStore.Get` as the claim words it, amended to the strict expiry
test `now > reset_at` used by the source. -/
def memGetClaimAmended (st : Store) (key : String) (now : Int) : Int × Int :=
  match st key with
  | some w => if now > w.resetTime then (0, now) else (w.count, w.resetTime)
  | none => (0, now)

/-- `MemoryStore.Increment` as the claim words it: count 1 with the supplied
reset time on first occurrence; reset to 1 adopting the supplied reset time
when the existing record has expired (`now ≥ reset_at` per the claim);
otherwise increment the existing count. -/
def memIncrementClaim (st : Store) (key : String) (resetTime now : Int) :
    Int × Store :=
  match st key with
  | some w =>
      if now ≥ w.resetTime then
        (1, fun k => if k = key then some ⟨1, resetTime⟩ else st k)
      else
        (w.count + 1,
         fun k => if k = key then some ⟨w.count + 1, w.resetTime⟩ else st k)
  | none => (1, fun k => if k = key then some ⟨1, resetTime⟩ else st k)

/-- `MemoryStore.Increment` as the claim words it, amended to the strict
expiry test `now > reset_at` used by the source. -/
def memIncrementClaimAmended (st : Store) (key : String) (resetTime now : Int) :
    Int × Store :=
  match st key with
  | some w =>
      if now > w.resetTime then
        (1, fun k => if k = key then some ⟨1, resetTime⟩ else st k)
      else
        (w.count + 1,
         fun k => if k = key then some ⟨w.count + 1, w.resetTime⟩ else st k)
  | none => (1, fun k => if k = key then some ⟨1, resetTime⟩ else st k)

/-- A store holding one record `{count := 3, reset := 100}` under key "k". -/
def c5Store : Store := fun k => if k = "k" then some ⟨3, 100⟩ else none

/-- C5 counterexample: at `now = reset_at` exactly, `MemoryStore.Get` still
returns the stored `(3, 100)` (Go's `time.Now().After` is strict), while the
claim ("no record or now ≥ the stored reset time returns (0, now)") demands
`(0, 100)`. -/
theorem c5_memGet_boundary_counterexample :
    memGet c5Store "k" 100 ≠ memGetClaim c5Store "k" 100 := by
  decide

/-- C5 (amended): `MemoryStore.Get` returns `(0, now)` when no record exists
or when `now` is strictly after the stored reset time, and otherwise the
stored `(count, reset_at)`; `MemoryStore.Increment` creates `count = 1` with
the supplied reset time on first occurrence, resets to 1 adopting the
supplied reset time when `now` is strictly after the stored reset time, and
otherwise increments the stored count keeping the stored reset time. -/
theorem c5_memory_store_follows_amended_claim
    (st : Store) (key : String) (resetTime now : Int) :
    memGet st key now = memGetClaimAmended st key now ∧
      memIncrement st key resetTime now =
        memIncrementClaimAmended st key resetTime now := by
  constructor <;> rfl

/-! ## Claim C4: route selection (`Service.findRouteLimit`, `Service.pathMatch`)

`RouteLimit` is the typed config record (config.go).  `pathMatch` mirrors
service.go lines 148-174; Go's `strings.Split(s, "/")` is modelled by a
character-list splitter with identical semantics (every `/` separates,
empty segments kept), and Go's byte `len` by `String.utf8ByteSize`. -/

/-- `RouteLimit` from config.go lines 115-123. -/
structure RouteLimit where
  path : String
  method : String
  requests : Int
  window : Int
  burst : Int
  group : String
  priority : Int
deriving DecidableEq, Repr

/-- `strings.Split` on `'/'` over the character list: every separator splits,
empty segments are kept, result has (number of separators + 1) entries. -/
def splitSlash : List Char → List (List Char)
  | [] => [[]]
  | ch :: cs =>
      if ch = '/' then [] :: splitSlash cs
      else
        match splitSlash cs with
        | s :: ss => (ch :: s) :: ss
        | [] => [[ch]]

/-- `strings.Split(s, "/")` (service.go lines 157-158). -/
def splitOnSlash (s : String) : List String :=
  (splitSlash s.data).map List.asString

/-- `Service.pathMatch` (service.go lines 148-174): exact equality, else a
pattern containing `*` matches segment-wise with `*` wildcarding exactly one
segment. -/
def pathMatch (pattern path : String) : Bool :=
  if pattern = path then true
  else if ¬ pattern.data.contains '*' then false
  else
    let patternParts := splitOnSlash pattern
    let pathParts := splitOnSlash path
    if patternParts.length ≠ pathParts.length then false
    else (patternParts.zip pathParts).all fun pq => pq.1 = "*" || pq.1 = pq.2

/-- A route is a candidate for `(method, path)`: its method is `"*"` or equal,
and its path pattern matches (service.go lines 122-127). -/
def routeCandidate (r : RouteLimit) (method path : String) : Bool :=
  (r.method = "*" || r.method = method) && pathMatch r.path path

/-- The mutable locals of the `findRouteLimit` loop (service.go lines
117-119), plus the single loop-variable cell `route`: the binary is built
with Go 1.19 (Dockerfile), where `for _, route := range s.config.Routes`
declares ONE variable for the whole loop, so `bestMatch = &route` aliases
this cell for every iteration. -/
structure FrlState where
  routeVar : Option RouteLimit
  bestSet : Bool
  bestPriority : Int
  bestPattern : String
deriving DecidableEq, Repr

/-- The `findRouteLimit` loop body (service.go lines 121-143) under Go 1.19
semantics: each iteration first overwrites the shared cell `routeVar`
(the range assignment), then runs the selection logic; `bestMatch` is the
aliased pointer, modelled by the flag `bestSet`. -/
def findRouteLimitLoop (method path : String) (s : FrlState) :
    List RouteLimit → FrlState
  | [] => s
  | r :: rest =>
      let s1 : FrlState := { s with routeVar := some r }
      if ¬ routeCandidate r method path then
        findRouteLimitLoop method path s1 rest
      else if s1.bestSet = false ∨ r.priority > s1.bestPriority then
        findRouteLimitLoop method path
          { s1 with bestSet := true, bestPriority := r.priority,
                    bestPattern := r.path } rest
      else if r.priority = s1.bestPriority ∧
          r.path.utf8ByteSize > s1.bestPattern.utf8ByteSize then
        findRouteLimitLoop method path { s1 with bestPattern := r.path } rest
      else
        findRouteLimitLoop method path s1 rest

/-- `Service.findRouteLimit` (service.go lines 116-146) as compiled by
Go 1.19: returning `bestMatch` dereferences the aliased loop variable, whose
final value is the last route of the slice. -/
def findRouteLimit (routes : List RouteLimit) (method path : String) :
    Option RouteLimit :=
  let s := findRouteLimitLoop method path ⟨none, false, 0, ""⟩ routes
  if s.bestSet then s.routeVar else none

/-- Route selection as the claim words it (and as the loop's comments
intend): among candidates pick the highest `priority`, break ties by the
longer pattern string, earlier routes winning remaining ties. -/
def findRouteLimitClaim (routes : List RouteLimit) (method path : String) :
    Option RouteLimit :=
  routes.foldl
    (fun best r =>
      if routeCandidate r method path then
        match best with
        | none => some r
        | some b =>
            if r.priority > b.priority then some r
            else if r.priority = b.priority ∧
                r.path.utf8ByteSize > b.path.utf8ByteSize then some r
            else some b
      else best)
    none

/-- Route B of spec scenario 4 / the shipped config: exact path, priority 1. -/
def routeUsers : RouteLimit :=
  { path := "/api/v1/users", method := "POST", requests := 10,
    window := 60000000000, burst := 5, group := "user_management",
    priority := 1 }

/-- Route A of spec scenario 4 / the shipped config: wildcard, priority 0. -/
def routeWildcard : RouteLimit :=
  { path := "/api/v1/*", method := "*", requests := 500,
    window := 60000000000, burst := 20, group := "api_v1", priority := 0 }

/-- C4: with the shipped route list `[users, wildcard]`, a POST to
`/api/v1/users` must by the claim (and spec scenario 4) be governed by the
exact, priority-1 `users` route, but `Service.findRouteLimit` returns the
`wildcard` route: under Go 1.19 (the Dockerfile's toolchain)
`bestMatch = &route` aliases the loop variable, so the returned pointer
dereferences to whatever route was iterated last, discarding the
priority/specificity selection. -/
theorem c4_findRouteLimit_loop_alias_bug :
    findRouteLimit [routeUsers, routeWildcard] "POST" "/api/v1/users" =
        some routeWildcard ∧
      findRouteLimitClaim [routeUsers, routeWildcard] "POST" "/api/v1/users" =
        some routeUsers ∧
      routeWildcard ≠ routeUsers := by
  decide

/-! ## Claims C3 / C2 / C10: the Allow pipeline over the memory store -/

/-- `Global` section of `RateLimitConfig` (config.go lines 62-66). -/
structure GlobalCfg where
  requests : Int
  window : Int
  burst : Int
deriving DecidableEq, Repr

/-- `PerIP` section of `RateLimitConfig` (config.go lines 69-75). -/
structure PerIPCfg where
  enabled : Bool
  requests : Int
  window : Int
  burst : Int
  whiteList : List String
deriving DecidableEq, Repr

/-- `RateLimitConfig` (config.go lines 59-113), restricted to the fields the
Limiter reads. -/
structure RateLimitConfig where
  enabled : Bool
  global : GlobalCfg
  perIP : PerIPCfg
  routes : List RouteLimit
deriving DecidableEq, Repr

/-- `Key.String()` (service.go lines 231-246) for the key built by
`Service.buildKey` (service.go lines 87-93), which sets only IP, Path and
Method: parts `[method, path]`, plus the IP when non-empty, colon-joined. -/
def keyString (method path ip : String) : String :=
  String.intercalate ":" ([method, path] ++ if ip = "" then [] else [ip])

/-- `Key.withSuffix` (service.go lines 248-250). -/
def withSuffix (key suffix : String) : String := key ++ ":" ++ suffix

/-- `Service.isWhitelisted` (service.go lines 95-114).  `cidrContains e ip`
models `net.ParseCIDR(e)` followed by `ipNet.Contains(net.ParseIP(ip))`,
returning `false` when the entry fails to parse (the `continue` branch). -/
def isWhitelisted (cidrContains : String → String → Bool)
    (whiteList : List String) (ip : String) : Bool :=
  whiteList.any fun e =>
    if e.data.contains '/' then cidrContains e ip else ip = e

/-- `Service.checkLimit` instantiated with the memory store
(service.go lines 176-227 over memory.go): `g` is the instant of the
`time.Now()` calls inside `store.Get`, `c` the instant of the calls inside
`checkLimit` itself (lines 183-190), `i` the instant of the call inside
`store.Increment`; sequential execution gives `g ≤ c ≤ i`.
Both store calls return `nil` errors (see `checkLimitMemE`), so the two
`if err != nil` branches of the source are dead and elided here. -/
def checkLimitMem (st : Store) (key : String) (limit window burst : Int)
    (g c i : Int) : Result × Store :=
  let got := memGet st key g
  let count := if c > got.2 then 0 else got.1
  let resetTime := if c > got.2 then c + window else got.2
  if count ≥ limit + burst then
    let retryAfter := resetTime - c
    ({ limited := true, remaining := 0, resetTime := resetTime,
       retryAfter := retryAfter,
       limitHeaders := limitedHeaders limit resetTime retryAfter }, st)
  else
    let incd := memIncrement st key resetTime i
    let remaining0 := limit + burst - incd.1
    let remaining := if remaining0 < 0 then 0 else remaining0
    ({ limited := false, remaining := remaining, resetTime := resetTime,
       retryAfter := 0,
       limitHeaders := admittedHeaders limit remaining resetTime }, incd.2)

/-- The zero-value `&Result{Limited: false}` returned on the disabled and
whitelist paths (service.go lines 32, 42). -/
def zeroResult : Result :=
  { limited := false, remaining := 0, resetTime := 0, retryAfter := 0,
    limitHeaders := [] }

/-- The final, unconditional global-tier check of `Service.Allow`
(service.go lines 67-72). -/
def allowGlobalTier (cfg : RateLimitConfig) (key : String) (st : Store)
    (tg : Int × Int × Int) : Result × Store :=
  checkLimitMem st (withSuffix key "global") cfg.global.requests
    cfg.global.window cfg.global.burst tg.1 tg.2.1 tg.2.2

/-- The IP-then-global tail of `Service.Allow` (service.go lines 60-72). -/
def allowIpGlobal (cfg : RateLimitConfig) (key : String) (st : Store)
    (tip tg : Int × Int × Int) : Result × Store :=
  if cfg.perIP.enabled then
    let rs := checkLimitMem st (withSuffix key "ip") cfg.perIP.requests
      cfg.perIP.window cfg.perIP.burst tip.1 tip.2.1 tip.2.2
    if rs.1.limited then rs else allowGlobalTier cfg key rs.2 tg
  else allowGlobalTier cfg key st tg

/-- `Service.Allow` (service.go lines 30-73) over the memory store.
`tr`, `tip`, `tg` are the `(g, c, i)` instant triples of the route, IP and
global tier checks. -/
def allow (cidrContains : String → String → Bool) (cfg : RateLimitConfig)
    (method path ip : String) (st : Store) (tr tip tg : Int × Int × Int) :
    Result × Store :=
  if cfg.enabled = false then (zeroResult, st)
  else
    let key := keyString method path ip
    if cfg.perIP.enabled && isWhitelisted cidrContains cfg.perIP.whiteList ip
    then (zeroResult, st)
    else
      match findRouteLimit cfg.routes method path with
      | some rl =>
          let rs := checkLimitMem st (withSuffix key "route") rl.requests
            rl.window rl.burst tr.1 tr.2.1 tr.2.2
          if rs.1.limited then rs
          else allowIpGlobal cfg key rs.2 tip tg
      | none => allowIpGlobal cfg key st tip tg

/-- One tier as the claim describes it: a key suffix, its `(limit, window,
burst)` parameters and its instant triple. -/
structure TierSpec where
  suffix : String
  requests : Int
  window : Int
  burst : Int
  times : Int × Int × Int
deriving Repr

/-- Tier-list evaluation as the claim words it: tiers are checked in list
order, the first `limited = true` result short-circuits, and when no tier
limits the last evaluated result is returned. -/
def evalTiers (key : String) (st : Store) : List TierSpec → Result × Store
  | [] => (zeroResult, st)
  | [t] =>
      checkLimitMem st (withSuffix key t.suffix) t.requests t.window t.burst
        t.times.1 t.times.2.1 t.times.2.2
  | t :: rest =>
      let rs := checkLimitMem st (withSuffix key t.suffix) t.requests t.window
        t.burst t.times.1 t.times.2.1 t.times.2.2
      if rs.1.limited then rs else evalTiers key rs.2 rest

/-- The tier list the claim prescribes, in order route → ip → global: the
route tier is present only when a route limit matched (missing configuration
is skipped), the ip tier only when `per_ip` is enabled (disabled
configuration is skipped), and the global tier is always evaluated. -/
def claimTiers (cfg : RateLimitConfig) (method path : String)
    (tr tip tg : Int × Int × Int) : List TierSpec :=
  (match findRouteLimit cfg.routes method path with
   | some rl => [⟨"route", rl.requests, rl.window, rl.burst, tr⟩]
   | none => []) ++
  (if cfg.perIP.enabled then
    [⟨"ip", cfg.perIP.requests, cfg.perIP.window, cfg.perIP.burst, tip⟩]
   else []) ++
  [⟨"global", cfg.global.requests, cfg.global.window, cfg.global.burst, tg⟩]

/-- `Allow` as the claim words it, for an enabled configuration and a
non-whitelisted client: evaluate the claim's tier list in order. -/
def allowClaim (cfg : RateLimitConfig) (method path ip : String) (st : Store)
    (tr tip tg : Int × Int × Int) : Result × Store :=
  evalTiers (keyString method path ip) st (claimTiers cfg method path tr tip tg)

/-- `MemoryStore.Increment` touches the store only at its own key. -/
theorem memIncrement_apply_ne (st : Store) (key : String)
    (resetTime now : Int) (k : String) (h : k ≠ key) :
    (memIncrement st key resetTime now).2 k = st k := by
  unfold memIncrement
  rcases st key with _ | w <;> dsimp only
  · rw [if_neg h]
  · split <;> dsimp only <;> rw [if_neg h]

/-- `checkLimitMem` touches the store only at its own key. -/
theorem checkLimitMem_apply_ne (st : Store) (key : String)
    (limit window burst g c i : Int) (k : String) (h : k ≠ key) :
    (checkLimitMem st key limit window burst g c i).2 k = st k := by
  unfold checkLimitMem
  dsimp only
  (repeat' split) <;>
    first
      | rfl
      | exact memIncrement_apply_ne _ _ _ _ _ h

/-- The length of a concatenation of strings. -/
theorem stringLengthAppend (a b : String) :
    (a ++ b).length = a.length + b.length := by
  rcases a with ⟨la⟩
  rcases b with ⟨lb⟩
  exact List.length_append la lb

/-- Suffixed keys with suffixes of different lengths differ. -/
theorem withSuffix_ne_of_len (key a b : String)
    (h : a.length ≠ b.length) : withSuffix key a ≠ withSuffix key b := by
  intro he
  apply h
  have hl := congrArg String.length he
  simp only [withSuffix, stringLengthAppend] at hl
  omega

/-- When `checkLimitMem` limits the request it does not touch the store. -/
theorem checkLimitMem_limited_store (st : Store) (key : String)
    (limit window burst g c i : Int)
    (h : (checkLimitMem st key limit window burst g c i).1.limited = true) :
    (checkLimitMem st key limit window burst g c i).2 = st := by
  unfold checkLimitMem at h ⊢
  dsimp only at h ⊢
  by_cases hc : (if c > (memGet st key g).2 then (0 : Int)
      else (memGet st key g).1) ≥ limit + burst
  · rw [if_pos hc]
  · rw [if_neg hc] at h
    exact absurd h (by simp)

/-- `allowIpGlobal` touches the store only at the ip and global keys. -/
theorem allowIpGlobal_apply_ne (cfg : RateLimitConfig) (key : String)
    (st : Store) (tip tg : Int × Int × Int) (k : String)
    (hip : k ≠ withSuffix key "ip") (hg : k ≠ withSuffix key "global") :
    (allowIpGlobal cfg key st tip tg).2 k = st k := by
  unfold allowIpGlobal allowGlobalTier
  dsimp only
  split
  · split
    · exact checkLimitMem_apply_ne _ _ _ _ _ _ _ _ _ hip
    · rw [checkLimitMem_apply_ne _ _ _ _ _ _ _ _ _ hg,
        checkLimitMem_apply_ne _ _ _ _ _ _ _ _ _ hip]
  · exact checkLimitMem_apply_ne _ _ _ _ _ _ _ _ _ hg

/-- The conjunction claim C3 asserts about one `Allow` evaluation:
`Allow` equals the claim's ordered tier cascade, a missing route limit
leaves the route-tier counter untouched, and a disabled per-IP tier leaves
the ip-tier counter untouched. -/
def AllowMirrorsClaim (cidrContains : String → String → Bool)
    (cfg : RateLimitConfig) (method path ip : String) (st : Store)
    (tr tip tg : Int × Int × Int) : Prop :=
  allow cidrContains cfg method path ip st tr tip tg =
      allowClaim cfg method path ip st tr tip tg ∧
    (findRouteLimit cfg.routes method path = none →
      (allow cidrContains cfg method path ip st tr tip tg).2
          (withSuffix (keyString method path ip) "route") =
        st (withSuffix (keyString method path ip) "route")) ∧
    (cfg.perIP.enabled = false →
      (allow cidrContains cfg method path ip st tr tip tg).2
          (withSuffix (keyString method path ip) "ip") =
        st (withSuffix (keyString method path ip) "ip"))

set_option maxRecDepth 16000 in
/-- C3: for every request under an enabled configuration whose client is not
admitted by the whitelist bypass, `Service.Allow` evaluates the tiers in
order route → ip → global, skipping the route tier when no route limit
matches and the ip tier when per-IP limiting is disabled (their counters are
untouched); the first limited tier's result is returned and otherwise the
last evaluated tier's result (the global tier's) is returned. -/
theorem c3_allow_tier_order (cidrContains : String → String → Bool)
    (cfg : RateLimitConfig) (method path ip : String) (st : Store)
    (tr tip tg : Int × Int × Int)
    (henabled : cfg.enabled = true)
    (hwl : (cfg.perIP.enabled &&
      isWhitelisted cidrContains cfg.perIP.whiteList ip) = false) :
    AllowMirrorsClaim cidrContains cfg method path ip st tr tip tg := by
  have hri : withSuffix (keyString method path ip) "route" ≠
      withSuffix (keyString method path ip) "ip" :=
    withSuffix_ne_of_len _ _ _ (by decide)
  have hrg : withSuffix (keyString method path ip) "route" ≠
      withSuffix (keyString method path ip) "global" :=
    withSuffix_ne_of_len _ _ _ (by decide)
  have hig : withSuffix (keyString method path ip) "ip" ≠
      withSuffix (keyString method path ip) "global" :=
    withSuffix_ne_of_len _ _ _ (by decide)
  refine ⟨?_, ?_, ?_⟩
  · rcases hip : cfg.perIP.enabled with _ | _
    · rcases hr : findRouteLimit cfg.routes method path with _ | rl <;>
        simp [allow, allowClaim, claimTiers, evalTiers, allowIpGlobal,
          allowGlobalTier, henabled, hr, hip]
    · have hw : isWhitelisted cidrContains cfg.perIP.whiteList ip = false := by
        simpa [hip] using hwl
      rcases hr : findRouteLimit cfg.routes method path with _ | rl <;>
        simp [allow, allowClaim, claimTiers, evalTiers, allowIpGlobal,
          allowGlobalTier, henabled, hr, hip, hw]
  · intro hr
    simp [allow, henabled, hwl, hr]
    exact allowIpGlobal_apply_ne _ _ _ _ _ _ hri hrg
  · intro hip
    rcases hr : findRouteLimit cfg.routes method path with _ | rl
    · simp [allow, allowIpGlobal, allowGlobalTier, henabled, hwl, hr, hip]
      exact checkLimitMem_apply_ne _ _ _ _ _ _ _ _ _ hig
    · simp [allow, allowIpGlobal, allowGlobalTier, henabled, hwl, hr, hip]
      split
      · rename_i hl
        rw [checkLimitMem_limited_store _ _ _ _ _ _ _ _ hl]
      · rw [checkLimitMem_apply_ne _ _ _ _ _ _ _ _ _ hig,
          checkLimitMem_apply_ne _ _ _ _ _ _ _ _ _ hri.symm]

/-- A CIDR oracle for concrete instantiations: no CIDR entry matches. -/
def c3Cidr : String → String → Bool := fun _ _ => false

/-- A concrete enabled configuration with the shipped route list. -/
def c3Cfg : RateLimitConfig :=
  { enabled := true,
    global := ⟨1000, 60000000000, 50⟩,
    perIP := ⟨true, 100, 60000000000, 10, []⟩,
    routes := [routeUsers, routeWildcard] }

/-- The empty store. -/
def emptyStore : Store := fun _ => none

/-- Witness for C3 at a concrete request, configuration and store. -/
theorem c3_allow_tier_order_witness :
    AllowMirrorsClaim c3Cidr c3Cfg "POST" "/api/v1/users" "9.9.9.9"
      emptyStore (0, 1, 2) (3, 4, 5) (6, 7, 8) :=
  c3_allow_tier_order c3Cidr c3Cfg "POST" "/api/v1/users" "9.9.9.9"
    emptyStore (0, 1, 2) (3, 4, 5) (6, 7, 8) rfl (by decide)

/-! ## Claim C2: admission bound within one window

A sequential execution of per-tier checks against the memory store for a
fixed key.  Each check consumes three clock instants `(g, c, i)`: the
`time.Now()` read inside `store.Get`, the reads inside `checkLimit` itself,
and the read inside `store.Increment`; sequentially `g ≤ c ≤ i`. -/

/-- Run a sequence of `Service.checkLimit` calls for one key against the
memory store, counting the admitted (non-limited) checks. -/
def runChecks (key : String) (limit window burst : Int) (st : Store) :
    List (Int × Int × Int) → Nat × Store
  | [] => (0, st)
  | t :: rest =>
      let rs := checkLimitMem st key limit window burst t.1 t.2.1 t.2.2
      let more := runChecks key limit window burst rs.2 rest
      (if rs.1.limited then more.1 else more.1 + 1, more.2)

/-- A check whose instants lie inside the stored window and whose counter is
full: limited, store unchanged. -/
theorem step_inWindow_limited (st : Store) (key : String)
    (limit window burst g c i m r : Int) (hst : st key = some ⟨m, r⟩)
    (hg : g ≤ r) (hc : c ≤ r) (hfull : m ≥ limit + burst) :
    (checkLimitMem st key limit window burst g c i).1.limited = true ∧
      (checkLimitMem st key limit window burst g c i).2 = st := by
  unfold checkLimitMem memGet
  simp only [hst, if_neg (not_lt.2 hg)]
  rw [if_neg (not_lt.2 hc), if_pos hfull]
  exact ⟨rfl, rfl⟩

/-- A check whose instants lie inside the stored window and whose counter is
not full: admitted, counter incremented, window kept. -/
theorem step_inWindow_admit (st : Store) (key : String)
    (limit window burst g c i m r : Int) (hst : st key = some ⟨m, r⟩)
    (hg : g ≤ r) (hc : c ≤ r) (hi : i ≤ r) (hroom : m < limit + burst) :
    (checkLimitMem st key limit window burst g c i).1.limited = false ∧
      (checkLimitMem st key limit window burst g c i).2 key =
        some ⟨m + 1, r⟩ := by
  unfold checkLimitMem memGet memIncrement
  simp only [hst, if_neg (not_lt.2 hg)]
  rw [if_neg (not_lt.2 hc), if_neg (not_le.2 hroom)]
  simp only [hst]
  rw [if_neg (not_lt.2 hi)]
  exact ⟨trivial, by simp⟩

/-- A check against a missing record when `limit + burst ≤ 0`: limited,
store unchanged (the treated count is 0 whichever way the window test
goes). -/
theorem step_empty_limited (st : Store) (key : String)
    (limit window burst g c i : Int) (hst : st key = none)
    (hzero : limit + burst ≤ 0) :
    (checkLimitMem st key limit window burst g c i).1.limited = true ∧
      (checkLimitMem st key limit window burst g c i).2 = st := by
  unfold checkLimitMem memGet
  simp only [hst]
  split <;> simp [hzero]

/-- The seeding check: from a missing record, with the clock advancing
between the `Get` read and the window test (`g < c`) and room in the limit,
the check is admitted and stores the seeded window `⟨1, c + window⟩`. -/
theorem step_seed (st : Store) (key : String)
    (limit window burst g c i : Int) (hst : st key = none) (hseed : g < c)
    (hroom : 0 < limit + burst) :
    (checkLimitMem st key limit window burst g c i).1.limited = false ∧
      (checkLimitMem st key limit window burst g c i).2 key =
        some ⟨1, c + window⟩ := by
  unfold checkLimitMem memGet memIncrement
  simp only [hst]
  rw [if_pos hseed, if_pos hseed, if_neg (not_le.2 hroom)]
  simp only [hst]
  exact ⟨trivial, by simp⟩

/-- Bound for a run starting from a stored window `⟨m, r⟩` with every
instant inside the window: at most `max (limit + burst − m) 0` further
admissions. -/
theorem runChecks_inWindow_bound (key : String) (limit window burst r : Int) :
    ∀ (ts : List (Int × Int × Int)) (st : Store) (m : Int),
      st key = some ⟨m, r⟩ →
      (∀ t ∈ ts, t.1 ≤ r ∧ t.2.1 ≤ r ∧ t.2.2 ≤ r) →
      ((runChecks key limit window burst st ts).1 : Int) ≤
        max (limit + burst - m) 0
  | [], _, _, _, _ => by
      simp [runChecks]
  | t :: rest, st, m, hst, hts => by
      have ht := hts t (List.mem_cons_self t rest)
      have hrest : ∀ t ∈ rest, t.1 ≤ r ∧ t.2.1 ≤ r ∧ t.2.2 ≤ r :=
        fun u hu => hts u (List.mem_cons_of_mem t hu)
      by_cases hfull : m ≥ limit + burst
      · obtain ⟨hlim, hkeep⟩ := step_inWindow_limited st key limit window
          burst t.1 t.2.1 t.2.2 m r hst ht.1 ht.2.1 hfull
        have ih := runChecks_inWindow_bound key limit window burst r rest
          (checkLimitMem st key limit window burst t.1 t.2.1 t.2.2).2 m
          (by rw [hkeep]; exact hst) hrest
        simp only [runChecks, hlim, if_true]
        exact le_trans ih (by omega)
      · push_neg at hfull
        obtain ⟨hadm, hkey⟩ := step_inWindow_admit st key limit window burst
          t.1 t.2.1 t.2.2 m r hst ht.1 ht.2.1 ht.2.2 hfull
        have ih := runChecks_inWindow_bound key limit window burst r rest
          (checkLimitMem st key limit window burst t.1 t.2.1 t.2.2).2 (m + 1)
          hkey hrest
        simp only [runChecks, hadm, Bool.false_eq_true, if_false]
        push_cast
        omega

/-- A run from an absent record with `limit + burst ≤ 0` admits nothing. -/
theorem runChecks_zero (key : String) (limit window burst : Int)
    (hzero : limit + burst ≤ 0) :
    ∀ (ts : List (Int × Int × Int)) (st : Store), st key = none →
      (runChecks key limit window burst st ts).1 = 0
  | [], _, _ => by simp [runChecks]
  | t :: rest, st, hst => by
      obtain ⟨hlim, hkeep⟩ := step_empty_limited st key limit window burst
        t.1 t.2.1 t.2.2 hst hzero
      have ih := runChecks_zero key limit window burst hzero rest
        (checkLimitMem st key limit window burst t.1 t.2.1 t.2.2).2
        (by rw [hkeep]; exact hst)
      simp only [runChecks, hlim, if_true]
      exact ih

/-- C2: within one window of the memory store, a tier configured with
`limit + burst = N ≥ 0` admits at most N sequential checks.  The store
starts without a record for the key; the first check reads the clock at
`g₁ < c₁` (the clock advances between `Get` and the window test, so the
seeded window is `[c₁, c₁ + window]`) and every later check's instants lie
inside that window; then at most `limit + burst` checks are admitted.
Moreover (second conjunct) a check whose instants lie strictly after a
stored record's reset time produces the same result as if the record were
absent: the counter is treated as 0 again and the window restarts. -/
theorem c2_window_admission_bound
    (key : String) (limit window burst g₁ c₁ i₁ : Int)
    (rest : List (Int × Int × Int)) (st : Store)
    (hN : 0 ≤ limit + burst) (hempty : st key = none) (hseed : g₁ < c₁)
    (hwin : ∀ t ∈ rest, t.1 ≤ c₁ + window ∧ t.2.1 ≤ c₁ + window ∧
      t.2.2 ≤ c₁ + window) :
    ((runChecks key limit window burst st ((g₁, c₁, i₁) :: rest)).1 : Int) ≤
        limit + burst ∧
      (∀ (st' : Store) (w : Window) (g c i : Int), st' key = some w →
        w.resetTime < g → g ≤ c → c ≤ i →
        (checkLimitMem st' key limit window burst g c i).1 =
          (checkLimitMem (memReset st' key) key limit window burst g c i).1) := by
  constructor
  · by_cases hzero : limit + burst ≤ 0
    · have h0 := runChecks_zero key limit window burst hzero
        ((g₁, c₁, i₁) :: rest) st hempty
      rw [h0]
      exact_mod_cast hN
    · push_neg at hzero
      obtain ⟨hadm, hkey⟩ := step_seed st key limit window burst g₁ c₁ i₁
        hempty hseed hzero
      have hb := runChecks_inWindow_bound key limit window burst
        (c₁ + window) rest
        (checkLimitMem st key limit window burst g₁ c₁ i₁).2 1 hkey hwin
      rw [max_eq_left (by omega)] at hb
      simp only [runChecks, hadm, Bool.false_eq_true, if_false]
      push_cast
      omega
  · intro st' w g c i hst hexp hgc hci
    have hig : w.resetTime < i := lt_of_lt_of_le hexp (hgc.trans hci)
    unfold checkLimitMem memGet memIncrement memReset
    simp only [hst, if_pos hexp, if_pos hig]
    by_cases hz : limit + burst ≤ 0 <;> simp [hz]

/-- Witness for C2's admission bound: limit 2, burst 0, window 100, four
rapid checks inside the window admit at most two requests. -/
theorem c2_window_admission_bound_witness :
    ((runChecks "k" 2 100 0 emptyStore
        [(0, 1, 1), (2, 2, 2), (3, 3, 3), (4, 4, 4)]).1 : Int) ≤ 2 + 0 :=
  (c2_window_admission_bound "k" 2 100 0 0 1 1 [(2, 2, 2), (3, 3, 3), (4, 4, 4)]
    emptyStore (by decide) rfl (by decide) (by decide)).1

/-! ## Claims C10 / C9: error plumbing and the middleware -/

/-- `Service.checkLimit` over the memory store with the Go error slots kept
(service.go lines 176-209: `if err != nil { return nil, err }` after `Get`
and after `Increment`). -/
def checkLimitMemE (st : Store) (key : String) (limit window burst : Int)
    (g c i : Int) : Except String (Result × Store) :=
  match memGetE st key g with
  | Except.error e => Except.error e
  | Except.ok got =>
      let count := if c > got.2 then 0 else got.1
      let resetTime := if c > got.2 then c + window else got.2
      if count ≥ limit + burst then
        let retryAfter := resetTime - c
        Except.ok
          ({ limited := true, remaining := 0, resetTime := resetTime,
             retryAfter := retryAfter,
             limitHeaders := limitedHeaders limit resetTime retryAfter }, st)
      else
        match memIncrementE st key resetTime i with
        | Except.error e => Except.error e
        | Except.ok incd =>
            let remaining0 := limit + burst - incd.1
            let remaining := if remaining0 < 0 then 0 else remaining0
            Except.ok
              ({ limited := false, remaining := remaining,
                 resetTime := resetTime, retryAfter := 0,
                 limitHeaders := admittedHeaders limit remaining resetTime },
               incd.2)

/-- Global-tier check with error slot (service.go lines 67-70). -/
def allowGlobalTierE (cfg : RateLimitConfig) (key : String) (st : Store)
    (tg : Int × Int × Int) : Except String (Result × Store) :=
  checkLimitMemE st (withSuffix key "global") cfg.global.requests
    cfg.global.window cfg.global.burst tg.1 tg.2.1 tg.2.2

/-- IP-then-global tail with error slots (service.go lines 60-72:
`if err != nil || result.Limited { return result, err }`). -/
def allowIpGlobalE (cfg : RateLimitConfig) (key : String) (st : Store)
    (tip tg : Int × Int × Int) : Except String (Result × Store) :=
  if cfg.perIP.enabled then
    match checkLimitMemE st (withSuffix key "ip") cfg.perIP.requests
      cfg.perIP.window cfg.perIP.burst tip.1 tip.2.1 tip.2.2 with
    | Except.error e => Except.error e
    | Except.ok rs =>
        if rs.1.limited then Except.ok rs else allowGlobalTierE cfg key rs.2 tg
  else allowGlobalTierE cfg key st tg

/-- `Service.Allow` with the Go error slots kept (service.go lines 30-73). -/
def allowE (cidrContains : String → String → Bool) (cfg : RateLimitConfig)
    (method path ip : String) (st : Store) (tr tip tg : Int × Int × Int) :
    Except String (Result × Store) :=
  if cfg.enabled = false then Except.ok (zeroResult, st)
  else
    let key := keyString method path ip
    if cfg.perIP.enabled && isWhitelisted cidrContains cfg.perIP.whiteList ip
    then Except.ok (zeroResult, st)
    else
      match findRouteLimit cfg.routes method path with
      | some rl =>
          match checkLimitMemE st (withSuffix key "route") rl.requests
            rl.window rl.burst tr.1 tr.2.1 tr.2.2 with
          | Except.error e => Except.error e
          | Except.ok rs =>
              if rs.1.limited then Except.ok rs
              else allowIpGlobalE cfg key rs.2 tip tg
      | none => allowIpGlobalE cfg key st tip tg

/-- What the rate-limit middleware (part_008 `Middleware`) does with the
outcome of `limiter.Allow`: a store error is returned as-is (fiber turns a
plain error into a 500), a limited result sets the tier's headers and
returns `fiber.NewError(429, "rate limit exceeded")`, and otherwise the
headers are set and the chain continues with `c.Next()`. -/
inductive MwOut where
  | errored (e : String)
  | limitedResp (status : Int) (body : String)
      (headers : List (String × String))
  | next (headers : List (String × String))
deriving DecidableEq, Repr

/-- `Middleware` (part_008 lines 8-30).  Note the function reads no
configuration: the 429 status and the "rate limit exceeded" body are
hard-coded, and the headers are set unconditionally. -/
def middleware (allowResult : Except String Result) : MwOut :=
  match allowResult with
  | Except.error e => MwOut.errored e
  | Except.ok result =>
      if result.limited then
        MwOut.limitedResp 429 "rate limit exceeded" result.limitHeaders
      else MwOut.next result.limitHeaders

/-- `memGetE` is `Except.ok` of `memGet`. -/
theorem memGetE_ok (st : Store) (key : String) (now : Int) :
    memGetE st key now = Except.ok (memGet st key now) := by
  unfold memGetE memGet
  rcases st key with _ | w
  · rfl
  · dsimp only
    split <;> rfl

/-- `memIncrementE` is `Except.ok` of `memIncrement`. -/
theorem memIncrementE_ok (st : Store) (key : String) (resetTime now : Int) :
    memIncrementE st key resetTime now =
      Except.ok (memIncrement st key resetTime now) := by
  unfold memIncrementE memIncrement
  rcases st key with _ | w
  · rfl
  · dsimp only
    split <;> rfl

/-- `checkLimitMemE` is `Except.ok` of `checkLimitMem`. -/
theorem checkLimitMemE_ok (st : Store) (key : String)
    (limit window burst g c i : Int) :
    checkLimitMemE st key limit window burst g c i =
      Except.ok (checkLimitMem st key limit window burst g c i) := by
  unfold checkLimitMemE checkLimitMem
  rw [memGetE_ok]
  dsimp only
  rw [memIncrementE_ok]
  dsimp only
  split <;> split <;> rfl

/-- `allowIpGlobalE` is `Except.ok` of `allowIpGlobal`. -/
theorem allowIpGlobalE_ok (cfg : RateLimitConfig) (key : String) (st : Store)
    (tip tg : Int × Int × Int) :
    allowIpGlobalE cfg key st tip tg =
      Except.ok (allowIpGlobal cfg key st tip tg) := by
  unfold allowIpGlobalE allowIpGlobal allowGlobalTierE allowGlobalTier
  split
  · rw [checkLimitMemE_ok]
    dsimp only
    split
    · rfl
    · rw [checkLimitMemE_ok]
  · rw [checkLimitMemE_ok]

/-- C10: the in-memory store's `Get`, `Increment` and `Reset` always return
a `nil` error, so `Service.Allow` backed by the memory store never returns
an error and the middleware's store-error branch (the fail-closed 5xx path)
is unreachable. -/
theorem c10_memory_allow_never_errors
    (cidrContains : String → String → Bool) (cfg : RateLimitConfig)
    (method path ip key : String) (st : Store) (resetTime now : Int)
    (tr tip tg : Int × Int × Int) :
    memGetE st key now = Except.ok (memGet st key now) ∧
      memIncrementE st key resetTime now =
        Except.ok (memIncrement st key resetTime now) ∧
      memResetE st key = Except.ok (memReset st key) ∧
      allowE cidrContains cfg method path ip st tr tip tg =
        Except.ok (allow cidrContains cfg method path ip st tr tip tg) ∧
      ∀ e : String,
        middleware ((allowE cidrContains cfg method path ip st tr tip tg).map
          Prod.fst) ≠ MwOut.errored e := by
  have hallow : allowE cidrContains cfg method path ip st tr tip tg =
      Except.ok (allow cidrContains cfg method path ip st tr tip tg) := by
    unfold allowE allow
    split
    · rfl
    · dsimp only
      split
      · rfl
      · split
        · rw [checkLimitMemE_ok]
          dsimp only
          split
          · rfl
          · rw [allowIpGlobalE_ok]
        · rw [allowIpGlobalE_ok]
  refine ⟨memGetE_ok st key now, memIncrementE_ok st key resetTime now, rfl,
    hallow, ?_⟩
  intro e
  rw [hallow]
  unfold middleware
  dsimp only [Except.map]
  split <;> simp

/-! ## Claim C9: the rate-limit-exceeded response -/

/-- The `Response` section of `RateLimitConfig` (config.go lines 96-100). -/
structure ResponseCfg where
  statusCode : Int
  message : String
  headers : Bool
deriving DecidableEq, Repr

/-- The middleware behaviour the claim describes: on a limited result the
client receives the configured status code and body, with the limiting
tier's headers set. -/
def middlewareClaim (respCfg : ResponseCfg) (result : Result) : MwOut :=
  if result.limited then
    MwOut.limitedResp respCfg.statusCode respCfg.message result.limitHeaders
  else MwOut.next result.limitHeaders

/-- The defaults the claim names: status 429, body "Too Many Requests"
(also the values in the shipped config file). -/
def defaultResponseCfg : ResponseCfg :=
  { statusCode := 429, message := "Too Many Requests", headers := true }

/-- A concrete limited result. -/
def c9LimitedResult : Result :=
  { limited := true, remaining := 0, resetTime := 60000000000,
    retryAfter := 30000000000,
    limitHeaders := limitedHeaders 10 60000000000 30000000000 }

/-- C9 counterexample: even under the default response configuration
(429 / "Too Many Requests"), the middleware answers a limited request with
the hard-coded body "rate limit exceeded" — `RateLimitConfig.Response` is
never consulted by part_008. -/
theorem c9_middleware_ignores_response_config :
    middleware (Except.ok c9LimitedResult) ≠
      middlewareClaim defaultResponseCfg c9LimitedResult := by
  decide

/-- C9 (amended): for every limited result, the client receives status 429
with body "rate limit exceeded" — regardless of the configured status code
and message — and the limiting tier's rate-limit headers are set on that
response. -/
theorem c9_limited_response (result : Result)
    (h : result.limited = true) :
    middleware (Except.ok result) =
      MwOut.limitedResp 429 "rate limit exceeded" result.limitHeaders := by
  unfold middleware
  dsimp only
  rw [if_pos h]

/-- Witness for C9 (amended) at a concrete limited result. -/
theorem c9_limited_response_witness :
    middleware (Except.ok c9LimitedResult) =
      MwOut.limitedResp 429 "rate limit exceeded"
        c9LimitedResult.limitHeaders :=
  c9_limited_response c9LimitedResult rfl

/-! ## Claim C8: the script engine's envelope read-back (part_006)

HTTP header collections are modelled as association lists with map
semantics: `headerSet` is `http.Header.Set` (replace the value stored under
a key), `headerGet` is `http.Header.Get`.  Script programs are modelled as
functions from the bound envelope to the mutated envelope (or a runtime
error), and the script cache as a map from service name to program.  The
envelope body holds the raw body text; the JSON-parsed/raw distinction of
part_006 lines 100-105 is immaterial here because the engine never writes
the body back. -/

/-- `ServiceTransform` from config.go lines 134-139. -/
structure ServiceTransform where
  url : String
  serviceName : String
deriving DecidableEq, Repr

/-- An outgoing `http.Request` as the proxy pipeline sees it: `body` is
what remains readable in `req.Body`. -/
structure HttpRequest where
  method : String
  path : String
  headers : List (String × String)
  body : String
deriving DecidableEq, Repr

/-- An upstream `http.Response`: `body` is what remains readable in
`resp.Body`. -/
structure HttpResponse where
  statusCode : Int
  headers : List (String × String)
  body : String
deriving DecidableEq, Repr

/-- The request envelope bound into the script VM
(part_006 lines 88-106). -/
structure ReqEnvelope where
  method : String
  path : String
  headers : List (String × String)
  body : String
deriving DecidableEq, Repr

/-- The response envelope bound into the script VM
(part_006 lines 144-161). -/
structure RespEnvelope where
  statusCode : Int
  headers : List (String × String)
  body : String
deriving DecidableEq, Repr

/-- `http.Header.Get`. -/
def headerGet (hs : List (String × String)) (k : String) : Option String :=
  (hs.find? (fun p => p.1 = k)).map Prod.snd

/-- `http.Header.Set`: store `v` under `k`, dropping any previous value. -/
def headerSet (hs : List (String × String)) (k v : String) :
    List (String × String) :=
  (k, v) :: hs.filter (fun p => p.1 ≠ k)

/-- The read-back loop `for k, v := range headerMap { Header.Set(k, v) }`
(part_006 lines 120-125 and 175-180). -/
def applyEnvHeaders (hs env : List (String × String)) :
    List (String × String) :=
  env.foldl (fun h p => headerSet h p.1 p.2) hs

/-- `Engine.findMatchingService` (part_006 lines 186-193): first service
whose configured URL equals the path exactly. -/
def findMatchingService (services : List ServiceTransform) (path : String) :
    Option ServiceTransform :=
  services.find? (fun s => s.url = path)

/-- `Engine.TransformRequest` (part_006 lines 75-128).  When a service
matches: the envelope is built from the request — reading `req.Body`
(line 96) drains it and the engine never restores it — the script runs, and
afterwards only the envelope's headers are applied back to the real request
(lines 119-125); the envelope body is never written back. -/
def engineTransformRequest (services : List ServiceTransform)
    (scripts : String → Option (ReqEnvelope → Except String ReqEnvelope))
    (req : HttpRequest) : Except String HttpRequest :=
  match findMatchingService services req.path with
  | none => Except.ok req
  | some svc =>
      match scripts svc.serviceName with
      | none => Except.error ("script not found: " ++ svc.serviceName)
      | some script =>
          let env : ReqEnvelope :=
            { method := req.method, path := req.path,
              headers := req.headers, body := req.body }
          match script env with
          | Except.error e => Except.error e
          | Except.ok env2 =>
              Except.ok
                { method := req.method, path := req.path,
                  headers := applyEnvHeaders req.headers env2.headers,
                  body := "" }

/-- `Engine.TransformResponse` (part_006 lines 131-183), same shape;
`reqPath` is `resp.Request.URL.Path`. -/
def engineTransformResponse (services : List ServiceTransform)
    (scripts : String → Option (RespEnvelope → Except String RespEnvelope))
    (reqPath : String) (resp : HttpResponse) : Except String HttpResponse :=
  match findMatchingService services reqPath with
  | none => Except.ok resp
  | some svc =>
      match scripts svc.serviceName with
      | none => Except.error ("script not found: " ++ svc.serviceName)
      | some script =>
          let env : RespEnvelope :=
            { statusCode := resp.statusCode, headers := resp.headers,
              body := resp.body }
          match script env with
          | Except.error e => Except.error e
          | Except.ok env2 =>
              Except.ok
                { statusCode := resp.statusCode,
                  headers := applyEnvHeaders resp.headers env2.headers,
                  body := "" }

/-- `find?` over a list filtered on a different key is unchanged. -/
theorem find_filter_ne (l : List (String × String)) (k k' : String)
    (h : k' ≠ k) :
    (l.filter (fun p => p.1 ≠ k)).find? (fun p => p.1 = k') =
      l.find? (fun p => p.1 = k') := by
  rw [List.find?_filter]
  congr 1
  funext a
  by_cases ha : a.1 = k'
  · have hak : a.1 ≠ k := by rw [ha]; exact h
    simp [ha, hak, h]
  · simp [ha]

/-- Looking up the key just set yields the new value. -/
theorem headerGet_set_self (hs : List (String × String)) (k v : String) :
    headerGet (headerSet hs k v) k = some v := by
  simp [headerGet, headerSet, List.find?]

/-- Looking up another key is unaffected by `headerSet`. -/
theorem headerGet_set_other (hs : List (String × String)) (k v k' : String)
    (h : k' ≠ k) : headerGet (headerSet hs k v) k' = headerGet hs k' := by
  simp only [headerGet, headerSet, List.find?]
  rw [decide_eq_false (by exact fun he => h he.symm : ¬ (k = k'))]
  rw [find_filter_ne hs k k' h]

/-- Keys not mentioned by the envelope keep their value across the
read-back fold. -/
theorem applyEnvHeaders_not_mem (env : List (String × String)) :
    ∀ (hs : List (String × String)) (k : String),
      k ∉ env.map Prod.fst →
      headerGet (applyEnvHeaders hs env) k = headerGet hs k := by
  induction env with
  | nil => intro hs k _; rfl
  | cons p rest ih =>
      intro hs k hk
      have hk1 : k ≠ p.1 := fun he => hk (by simp [he])
      have hk2 : k ∉ rest.map Prod.fst := fun hm => hk (by simp [hm])
      unfold applyEnvHeaders at ih ⊢
      rw [List.foldl_cons, ih (headerSet hs p.1 p.2) k hk2,
        headerGet_set_other hs p.1 p.2 k hk1]

/-- Every key/value pair of the envelope map is present after the
read-back fold (envelope keys are distinct: they come from a Go map). -/
theorem applyEnvHeaders_mem (env : List (String × String)) :
    ∀ (hs : List (String × String)),
      (env.map Prod.fst).Nodup →
      ∀ kv ∈ env, headerGet (applyEnvHeaders hs env) kv.1 = some kv.2 := by
  induction env with
  | nil => intro hs _ kv hkv; cases hkv
  | cons p rest ih =>
      intro hs hnd kv hkv
      have hnd' := hnd
      rw [List.map_cons, List.nodup_cons] at hnd'
      rcases List.mem_cons.mp hkv with hkv | hkv
      · subst hkv
        unfold applyEnvHeaders
        rw [List.foldl_cons]
        have hnm := applyEnvHeaders_not_mem rest (headerSet hs kv.1 kv.2)
          kv.1 hnd'.1
        unfold applyEnvHeaders at hnm
        rw [hnm]
        exact headerGet_set_self hs kv.1 kv.2
      · unfold applyEnvHeaders
        rw [List.foldl_cons]
        exact ih (headerSet hs p.1 p.2) hnd'.2 kv hkv

/-- The conjunction claim C8 is about (amended): after a successful script
run, every header present in the returned envelope map is set (overwriting)
on the real request/response and other headers are untouched, but the
envelope body is NOT re-serialized into the real message — the real body,
drained while building the envelope, is left empty. -/
def EnvelopeReadbackClaim (services : List ServiceTransform)
    (scriptsReq : String → Option (ReqEnvelope → Except String ReqEnvelope))
    (scriptsResp : String → Option (RespEnvelope → Except String RespEnvelope))
    (req : HttpRequest) (resp : HttpResponse) (reqPath : String)
    (envR : ReqEnvelope) (envP : RespEnvelope) : Prop :=
  (engineTransformRequest services scriptsReq req =
    Except.ok
      { method := req.method, path := req.path,
        headers := applyEnvHeaders req.headers envR.headers,
        body := "" }) ∧
  (∀ kv ∈ envR.headers,
    headerGet (applyEnvHeaders req.headers envR.headers) kv.1 = some kv.2) ∧
  (∀ k, k ∉ envR.headers.map Prod.fst →
    headerGet (applyEnvHeaders req.headers envR.headers) k =
      headerGet req.headers k) ∧
  (engineTransformResponse services scriptsResp reqPath resp =
    Except.ok
      { statusCode := resp.statusCode,
        headers := applyEnvHeaders resp.headers envP.headers,
        body := "" }) ∧
  (∀ kv ∈ envP.headers,
    headerGet (applyEnvHeaders resp.headers envP.headers) kv.1 = some kv.2) ∧
  (∀ k, k ∉ envP.headers.map Prod.fst →
    headerGet (applyEnvHeaders resp.headers envP.headers) k =
      headerGet resp.headers k)

/-- C8 (amended): for every matched service whose request and response
scripts run successfully, the engine applies exactly the envelope's headers
back to the real messages (set/overwrite; unmentioned keys keep their
values) and does not write the envelope body back: the real body is left
drained, so a body field rewritten by a script is not observed by the
upstream (request side) or the client (response side). -/
theorem c8_envelope_readback (services : List ServiceTransform)
    (scriptsReq : String → Option (ReqEnvelope → Except String ReqEnvelope))
    (scriptsResp : String → Option (RespEnvelope → Except String RespEnvelope))
    (req : HttpRequest) (resp : HttpResponse) (reqPath : String)
    (svcR svcP : ServiceTransform)
    (scriptR : ReqEnvelope → Except String ReqEnvelope)
    (scriptP : RespEnvelope → Except String RespEnvelope)
    (envR : ReqEnvelope) (envP : RespEnvelope)
    (hsvcR : findMatchingService services req.path = some svcR)
    (hscrR : scriptsReq svcR.serviceName = some scriptR)
    (hrunR : scriptR ⟨req.method, req.path, req.headers, req.body⟩ =
      Except.ok envR)
    (hndR : (envR.headers.map Prod.fst).Nodup)
    (hsvcP : findMatchingService services reqPath = some svcP)
    (hscrP : scriptsResp svcP.serviceName = some scriptP)
    (hrunP : scriptP ⟨resp.statusCode, resp.headers, resp.body⟩ =
      Except.ok envP)
    (hndP : (envP.headers.map Prod.fst).Nodup) :
    EnvelopeReadbackClaim services scriptsReq scriptsResp req resp reqPath
      envR envP := by
  refine ⟨?_,
    fun kv hkv => applyEnvHeaders_mem envR.headers req.headers hndR kv hkv,
    fun k hk => applyEnvHeaders_not_mem envR.headers req.headers k hk, ?_,
    fun kv hkv => applyEnvHeaders_mem envP.headers resp.headers hndP kv hkv,
    fun k hk => applyEnvHeaders_not_mem envP.headers resp.headers k hk⟩
  · unfold engineTransformRequest
    rw [hsvcR]
    dsimp only
    rw [hscrR]
    dsimp only
    rw [hrunR]
  · unfold engineTransformResponse
    rw [hsvcP]
    dsimp only
    rw [hscrP]
    dsimp only
    rw [hrunP]

/-- The shipped auth service mapping (config: url `/auth/login`,
service_name `auth`). -/
def c8Services : List ServiceTransform := [⟨"/auth/login", "auth"⟩]

/-- The masked body the scenario-5 request script produces. -/
def c8MaskBody : String := "user=u password=********"

/-- A request script that sets `X-Service: auth` and masks the password
field in the body (spec scenario 5). -/
def c8Script : ReqEnvelope → Except String ReqEnvelope :=
  fun env =>
    Except.ok { env with headers := headerSet env.headers "X-Service" "auth",
                         body := c8MaskBody }

/-- The script cache holding the auth request script. -/
def c8Scripts : String → Option (ReqEnvelope → Except String ReqEnvelope) :=
  fun n => if n = "auth" then some c8Script else none

/-- The scenario-5 login request. -/
def c8Req : HttpRequest :=
  { method := "POST", path := "/auth/login",
    headers := [("Content-Type", "application/json")],
    body := "user=u password=p" }

/-- A response script that sets a security header. -/
def c8RespScript : RespEnvelope → Except String RespEnvelope :=
  fun env =>
    Except.ok { env with
      headers := headerSet env.headers "X-Frame-Options" "DENY" }

/-- The script cache holding the auth response script. -/
def c8RespScripts :
    String → Option (RespEnvelope → Except String RespEnvelope) :=
  fun n => if n = "auth" then some c8RespScript else none

/-- A concrete upstream response. -/
def c8Resp : HttpResponse :=
  { statusCode := 200, headers := [("X-Internal-Token", "secret")],
    body := "ok=true" }

/-- The envelope the request script returns on `c8Req`. -/
def c8EnvR : ReqEnvelope :=
  { method := "POST", path := "/auth/login",
    headers := headerSet [("Content-Type", "application/json")]
      "X-Service" "auth",
    body := c8MaskBody }

/-- The envelope the response script returns on `c8Resp`. -/
def c8EnvP : RespEnvelope :=
  { statusCode := 200,
    headers := headerSet [("X-Internal-Token", "secret")]
      "X-Frame-Options" "DENY",
    body := "ok=true" }

/-- C8 counterexample: for the scenario-5 request, whose script rewrites the
JSON body to mask the password, `Engine.TransformRequest` forwards an EMPTY
body (the original was drained into the envelope and the envelope body is
never re-serialized), not the script's rewritten body as the claim
requires. -/
theorem c8_body_not_written_back :
    (engineTransformRequest c8Services c8Scripts c8Req).map
        HttpRequest.body = Except.ok "" ∧
      ("" : String) ≠ c8MaskBody := by
  exact ⟨rfl, by decide⟩

/-- Witness for C8 (amended) at the scenario-5 service, scripts, request
and response. -/
theorem c8_envelope_readback_witness :
    EnvelopeReadbackClaim c8Services c8Scripts c8RespScripts c8Req c8Resp
      "/auth/login" c8EnvR c8EnvP :=
  c8_envelope_readback c8Services c8Scripts c8RespScripts c8Req c8Resp
    "/auth/login" ⟨"/auth/login", "auth"⟩ ⟨"/auth/login", "auth"⟩
    c8Script c8RespScript c8EnvR c8EnvP
    rfl rfl rfl (by decide) rfl rfl rfl (by decide)

/-! ## Claims C6 / C7: the proxy handler's logging and error paths
(part_009 `ProxyHandler.Handle`, lines 203-340)

The handler is modelled as a function of the incoming request, the script
engine caches (wired to the part_006 engine embedded above), the
deterministic header pass (`HttpRequestResponseTransformer`, which returns a
`nil` error on every path and only rewrites headers — kept abstract as a
total function), and the upstream round-trip.  Its output is the list of
Log records published to the log sink plus what is returned to fiber.
Goroutine hand-off of the two `logSvc.LogRequest` calls is modelled as
emission order; the claims are about which records are published at all. -/

/-- `model.ProcessType`. -/
inductive ProcessType where
  | request
  | response
deriving DecidableEq, Repr

/-- A published `model.Log` record, restricted to the fields the claims
mention.  `errorMsg` is `model.Log.Error`; part_009 never assigns it. -/
structure LogRec where
  traceID : String
  processType : ProcessType
  errorMsg : String
  statusCode : Int
deriving DecidableEq, Repr

/-- What `Handle` returns to fiber. -/
inductive HandleResult where
  | passedToNext
  | errored (e : String)
  | responded (status : Int) (body : String)
deriving DecidableEq, Repr

/-- The observable outcome of one `Handle` call: the Log records published
to the log sink, and the handler's return. -/
structure HandleOutcome where
  logs : List LogRec
  result : HandleResult
deriving DecidableEq, Repr

/-- `ProxyHandler.Handle` (part_009 lines 203-340). -/
def handle (services : List ServiceTransform)
    (scriptsReq : String → Option (ReqEnvelope → Except String ReqEnvelope))
    (scriptsResp : String → Option (RespEnvelope → Except String RespEnvelope))
    (headerReq : HttpRequest → HttpRequest)
    (headerResp : HttpResponse → HttpResponse)
    (roundTrip : HttpRequest → Except String HttpResponse)
    (traceID : String) (req : HttpRequest) : HandleOutcome :=
  -- lines 204-207: the reserved metrics path is passed to the next handler
  if req.path = "/metrics" then
    { logs := [], result := HandleResult.passedToNext }
  else
    -- lines 239-243: script transform; on error the handler returns it,
    -- before any Log record is published
    match engineTransformRequest services scriptsReq req with
    | Except.error e => { logs := [], result := HandleResult.errored e }
    | Except.ok req1 =>
        -- line 245: deterministic header pass (always nil error)
        let req2 := headerReq req1
        -- lines 247-265: the request Log (Error field never assigned)
        let reqLog : LogRec :=
          { traceID := traceID, processType := ProcessType.request,
            errorMsg := "", statusCode := 0 }
        -- lines 267-272: upstream round-trip; on error the handler returns
        -- it — no response Log is published
        match roundTrip req2 with
        | Except.error e =>
            { logs := [reqLog], result := HandleResult.errored e }
        | Except.ok resp =>
            -- lines 275-279: response script transform; on error the
            -- handler returns it — no response Log is published
            match engineTransformResponse services scriptsResp req.path
              resp with
            | Except.error e =>
                { logs := [reqLog], result := HandleResult.errored e }
            | Except.ok resp1 =>
                -- line 287: the response body is read here (already
                -- drained by a matching transform); lines 305-339: header
                -- pass, response Log, client response
                let resp2 := headerResp resp1
                let respLog : LogRec :=
                  { traceID := traceID, processType := ProcessType.response,
                    errorMsg := "", statusCode := resp2.statusCode }
                { logs := [reqLog, respLog],
                  result := HandleResult.responded resp2.statusCode
                    resp1.body }

/-- An empty request-script cache. -/
def noReqScripts : String → Option (ReqEnvelope → Except String ReqEnvelope) :=
  fun _ => none

/-- An empty response-script cache. -/
def noRespScripts :
    String → Option (RespEnvelope → Except String RespEnvelope) :=
  fun _ => none

/-- A plain proxied request. -/
def c6Req : HttpRequest :=
  { method := "GET", path := "/foo", headers := [], body := "" }

/-- An upstream that fails with a network error. -/
def c6FailRoundTrip : HttpRequest → Except String HttpResponse :=
  fun _ => Except.error "connection refused"

/-- A successful upstream response. -/
def c6UpResp : HttpResponse :=
  { statusCode := 200, headers := [], body := "hello" }

/-- An upstream that answers `c6UpResp`. -/
def c6OkRoundTrip : HttpRequest → Except String HttpResponse :=
  fun _ => Except.ok c6UpResp

/-- C6 counterexample: when the upstream call fails with a network error the
handler publishes NO response Log at all (it returns the error right after
the request Log), so "exactly one response Log per completed request, with
the error string" fails on this input. -/
theorem c6_no_response_log_on_upstream_error :
    (handle [] noReqScripts noRespScripts id id c6FailRoundTrip "T"
        c6Req).logs.countP
        (fun l => l.processType == ProcessType.response) = 0 ∧
      (handle [] noReqScripts noRespScripts id id c6FailRoundTrip "T"
        c6Req).result = HandleResult.errored "connection refused" := by
  decide

/-- C6 (amended): for every proxied request (non-metrics path) whose request
transformation succeeds, exactly one request Log is published; when the
upstream call and the response transformation also succeed, exactly one
response Log is additionally published, and the two records share the
handler's trace id; when the upstream call fails with a network error, only
the request Log is published — no response Log, no error record — and the
handler returns the error. -/
theorem c6_log_emission (services : List ServiceTransform)
    (scriptsReq : String → Option (ReqEnvelope → Except String ReqEnvelope))
    (scriptsResp : String → Option (RespEnvelope → Except String RespEnvelope))
    (headerReq : HttpRequest → HttpRequest)
    (headerResp : HttpResponse → HttpResponse)
    (roundTrip : HttpRequest → Except String HttpResponse)
    (traceID : String) (req : HttpRequest) (req1 : HttpRequest)
    (hpath : ¬ (req.path = "/metrics"))
    (hreq : engineTransformRequest services scriptsReq req = Except.ok req1) :
    (∀ resp resp1, roundTrip (headerReq req1) = Except.ok resp →
      engineTransformResponse services scriptsResp req.path resp =
        Except.ok resp1 →
      (handle services scriptsReq scriptsResp headerReq headerResp roundTrip
          traceID req).logs.map (fun l => (l.processType, l.traceID)) =
        [(ProcessType.request, traceID), (ProcessType.response, traceID)]) ∧
    (∀ e, roundTrip (headerReq req1) = Except.error e →
      (handle services scriptsReq scriptsResp headerReq headerResp roundTrip
          traceID req).logs.map (fun l => (l.processType, l.traceID)) =
          [(ProcessType.request, traceID)] ∧
        (handle services scriptsReq scriptsResp headerReq headerResp
          roundTrip traceID req).result = HandleResult.errored e) := by
  constructor
  · intro resp resp1 hrt hresp
    unfold handle
    rw [if_neg hpath, hreq]
    dsimp only
    rw [hrt]
    dsimp only
    rw [hresp]
    rfl
  · intro e hrt
    unfold handle
    rw [if_neg hpath, hreq]
    dsimp only
    rw [hrt]
    exact ⟨rfl, rfl⟩

/-- Witness for C6 (amended): success path of a plain request. -/
theorem c6_log_emission_witness :
    (handle [] noReqScripts noRespScripts id id c6OkRoundTrip "T"
        c6Req).logs.map (fun l => (l.processType, l.traceID)) =
      [(ProcessType.request, "T"), (ProcessType.response, "T")] :=
  (c6_log_emission [] noReqScripts noRespScripts id id c6OkRoundTrip "T"
    c6Req c6Req (by decide) rfl).1 c6UpResp c6UpResp rfl rfl

/-- The failing request script of claim C7's scenario. -/
def c7FailScript : ReqEnvelope → Except String ReqEnvelope :=
  fun _ => Except.error "boom"

/-- A script cache whose auth request script fails at run time. -/
def c7Scripts : String → Option (ReqEnvelope → Except String ReqEnvelope) :=
  fun n => if n = "auth" then some c7FailScript else none

/-- C7 counterexample: when the request transform script fails, the handler
returns the script error — the client's request IS failed (fiber answers
with an error response), the request is not forwarded untransformed, and no
Log record is published. -/
theorem c7_request_fails_on_script_error :
    (handle c8Services c7Scripts noRespScripts id id c6OkRoundTrip "T"
        c8Req).result = HandleResult.errored "boom" ∧
      (handle c8Services c7Scripts noRespScripts id id c6OkRoundTrip "T"
        c8Req).logs = [] := by
  decide

/-- C7 (amended): for every request (non-metrics path) whose transform
script exists and fails, the handler aborts: it returns the script error to
fiber (the client's request is failed), the upstream is never consulted
(the outcome is the same for every round-trip function), and no Log record
is published; a response-script failure likewise returns the error, after
the request Log only. -/
theorem c7_script_error_aborts (services : List ServiceTransform)
    (scriptsReq : String → Option (ReqEnvelope → Except String ReqEnvelope))
    (scriptsResp : String → Option (RespEnvelope → Except String RespEnvelope))
    (headerReq : HttpRequest → HttpRequest)
    (headerResp : HttpResponse → HttpResponse)
    (roundTrip : HttpRequest → Except String HttpResponse)
    (traceID : String) (req : HttpRequest)
    (hpath : ¬ (req.path = "/metrics")) :
    (∀ e, engineTransformRequest services scriptsReq req = Except.error e →
      handle services scriptsReq scriptsResp headerReq headerResp roundTrip
          traceID req =
        { logs := [], result := HandleResult.errored e }) ∧
    (∀ req1 resp e,
      engineTransformRequest services scriptsReq req = Except.ok req1 →
      roundTrip (headerReq req1) = Except.ok resp →
      engineTransformResponse services scriptsResp req.path resp =
        Except.error e →
      handle services scriptsReq scriptsResp headerReq headerResp roundTrip
          traceID req =
        { logs := [{ traceID := traceID, processType := ProcessType.request,
                     errorMsg := "", statusCode := 0 }],
          result := HandleResult.errored e }) := by
  constructor
  · intro e herr
    unfold handle
    rw [if_neg hpath, herr]
  · intro req1 resp e hok hrt hresp
    unfold handle
    rw [if_neg hpath, hok]
    dsimp only
    rw [hrt]
    dsimp only
    rw [hresp]

/-- Witness for C7 (amended): the failing auth script on the login
request. -/
theorem c7_script_error_aborts_witness :
    handle c8Services c7Scripts noRespScripts id id c6OkRoundTrip "T"
        c8Req =
      { logs := [], result := HandleResult.errored "boom" } :=
  (c7_script_error_aborts c8Services c7Scripts noRespScripts id id
    c6OkRoundTrip "T" c8Req (by decide)).1 "boom" rfl

end Muhtar
